import Mathlib

/-!
# Shallow embedding of the apex-ledge-v2 transfer engine

This file embeds the transfer engine of the `apex-ledger` Go service:

* `internal/service` (`LedgerService.PerformTransfer`, `recordTransaction`),
* `internal/account/repository.go` (`GetAccountWithLock`, `UpdateBalance`),
* `internal/account/handler.go` (`Handler.Transfer`, `Handler.CreateAccount`
  and their error-string-to-gRPC-code mapping),
* `internal/account/worker.go` (`NotificationWorkerPool.Enqueue`),

and proves the specified properties of the engine against it.

Modelling conventions:

* The Postgres store is a pair of an `accounts` map (`String → Option Account`)
  and a `transactions` list.  Balances are mathematical integers (`Int`):
  the `balance_cents` column is a Postgres `BIGINT`, and Postgres aborts a
  statement whose result leaves the `BIGINT` range instead of wrapping, so
  every committed value is the exact integer; the Go side only compares and
  negates values already in range.
* A run of `PerformTransfer` is deterministic once the generated transaction
  id (`uuid.New().String()`), the clock (`NOW()` / `time.Now()`), and the
  infrastructure failures (`Faults`: does `BeginTxx` / an `UPDATE` exec /
  the `INSERT` / `Commit` fail for driver reasons) are fixed, so they are
  passed as explicit parameters.
* The SQL transaction is modelled by threading a transaction-local view of
  the store; only `Commit` publishes it.  The result records the published
  store and the trace of store interactions (`StoreEvent`).  A failed
  `BeginTxx` opens no transaction and is recorded as no event; `beginTx`
  in a trace means a transaction was opened, and the deferred
  `tx.Rollback()` of the Go code shows up as a trailing `rollbackTx` on
  every error exit taken after it.
* Error values (`Err`) carry exactly the data interpolated into the
  `fmt.Errorf` format strings of the source; `Err.message` renders the
  resulting message, and the handler's `strings.Contains`-based mapping to
  gRPC codes is modelled by real substring search on those messages.
  The text of an underlying driver error is opaque and rendered as the
  fixed placeholder "driver error".
-/

namespace ApexLedger

/-- A row of the `accounts` table (`internal/account/model.go`, migration
`001_create_schema.sql`): `id`, `balance_cents BIGINT`, `currency`,
`created_at`, `updated_at`.  Timestamps are modelled as abstract ticks. -/
structure Account where
  id : String
  balanceCents : Int
  currency : String
  createdAt : Nat
  updatedAt : Nat
  deriving DecidableEq, Repr

/-- A row of the `transactions` audit table (`001_create_schema.sql` and
`recordTransaction`): `id`, `from_account_id`, `to_account_id`,
`amount_cents`, `currency`, `created_at`. -/
structure TxRecord where
  id : String
  fromAccountId : String
  toAccountId : String
  amountCents : Int
  currency : String
  createdAt : Nat
  deriving DecidableEq, Repr

/-- The durable store: the `accounts` relation keyed by id and the
append-only `transactions` relation. -/
structure DBState where
  accounts : String → Option Account
  transactions : List TxRecord

/-- The errors `PerformTransfer`, `GetAccountWithLock` and `UpdateBalance`
can produce, one constructor per `fmt.Errorf` site, carrying the values
interpolated into the format string. -/
inductive Err where
  | emptyAccountIds
  | sameAccount
  | amountNotPositive
  | beginFailed
  | accountNotFound (id : String)
  | currencyMismatch (c1 c2 : String)
  | insufficientFunds (id : String) (balance required : Int)
  | updateExecFailed (id : String)
  | debitFailed (id : String) (inner : Err)
  | creditFailed (id : String) (inner : Err)
  | recordFailed
  | commitFailed
  deriving DecidableEq, Repr

/-- The rendered Go error message of each `Err`, following the `fmt.Errorf`
format strings of the source (`%w` wrapping becomes message concatenation,
which is what `err.Error()` yields on a wrapped error). -/
def Err.message : Err → String
  | .emptyAccountIds => "account IDs cannot be empty"
  | .sameAccount => "cannot transfer to the same account"
  | .amountNotPositive => "amount must be positive"
  | .beginFailed => "failed to begin transaction: driver error"
  | .accountNotFound id => "account " ++ id ++ " not found"
  | .currencyMismatch c1 c2 => "currency mismatch: " ++ c1 ++ " != " ++ c2
  | .insufficientFunds id b r =>
      "insufficient funds in account " ++ id ++ ": balance " ++ toString b
        ++ ", required " ++ toString r
  | .updateExecFailed id =>
      "failed to update balance for account " ++ id ++ ": driver error"
  | .debitFailed id e => "failed to debit account " ++ id ++ ": " ++ e.message
  | .creditFailed id e => "failed to credit account " ++ id ++ ": " ++ e.message
  | .recordFailed => "failed to record transaction: driver error"
  | .commitFailed => "failed to commit transaction: driver error"

/-- `charsContain l pat` is true when `pat` occurs as a contiguous substring
of `l`: the semantics of Go's `strings.Contains`, on character lists. -/
def charsContain : List Char → List Char → Bool
  | [], pat => pat.isEmpty
  | c :: rest, pat => pat.isPrefixOf (c :: rest) || charsContain rest pat

/-- Go's `strings.Contains s pat`. -/
def strContains (s pat : String) : Bool :=
  charsContain s.data pat.data

/-- Lexicographic comparison of character lists by code point.  UTF-8 is
order-preserving on code points, so this is exactly Go's byte-wise `<` on
the encoded strings. -/
def charsLt : List Char → List Char → Bool
  | _, [] => false
  | [], _ :: _ => true
  | a :: as, b :: bs =>
      if a.toNat < b.toNat then true
      else if b.toNat < a.toNat then false
      else charsLt as bs

/-- Go's `<` on strings: lexicographic byte order. -/
def strLt (s t : String) : Bool :=
  charsLt s.data t.data

deriving instance DecidableEq for Except

/-- The gRPC status codes the handler uses. -/
inductive GrpcCode where
  | invalidArgument
  | notFound
  | failedPrecondition
  | alreadyExists
  | internal
  deriving DecidableEq, Repr

/-- Store interactions performed by a transfer, in order.  `beginTx` means a
transaction was opened, `lockRow` a `SELECT ... FOR UPDATE`, `updateRow` a
balance `UPDATE`, `insertTx` the audit `INSERT`, `commitTx` / `rollbackTx`
the terminal operations.  `enqueueNotif` would record handing a
notification to the worker pool. -/
inductive StoreEvent where
  | beginTx
  | lockRow (id : String)
  | updateRow (id : String)
  | insertTx
  | commitTx
  | rollbackTx
  | enqueueNotif (accountId : String)
  deriving DecidableEq, Repr

/-- Which infrastructure operations fail for driver reasons in a given run. -/
structure Faults where
  beginFails : Bool
  debitExecFails : Bool
  creditExecFails : Bool
  insertFails : Bool
  commitFails : Bool
  deriving DecidableEq, Repr

/-- The fault-free run. -/
def noFaults : Faults := ⟨false, false, false, false, false⟩

/-- `Repository.GetAccountWithLock` (repository.go): `SELECT ... FOR UPDATE`
on the given id inside the open transaction; `sql.ErrNoRows` becomes the
"account %s not found" error.  The row-lock blocking itself is the store's
concern; sequentially the call returns the current row of the transaction's
view. -/
def GetAccountWithLock (accounts : String → Option Account) (id : String) :
    Except Err Account :=
  match accounts id with
  | none => .error (.accountNotFound id)
  | some acc => .ok acc

/-- `Repository.UpdateBalance` (repository.go): `UPDATE accounts SET
balance_cents = balance_cents + $1, updated_at = NOW() WHERE id = $2`.
A driver failure of the exec is the first error; otherwise zero rows
affected (the id does not exist) yields the "account %s not found" error;
otherwise the row is updated in place. -/
def UpdateBalance (execFails : Bool) (now : Nat)
    (accounts : String → Option Account) (id : String) (amount : Int) :
    Except Err (String → Option Account) :=
  if execFails then .error (.updateExecFailed id)
  else
    match accounts id with
    | none => .error (.accountNotFound id)
    | some acc =>
        .ok fun k =>
          if k = id then
            some { acc with balanceCents := acc.balanceCents + amount,
                            updatedAt := now }
          else accounts k

/-- `LedgerService.recordTransaction`: `INSERT INTO transactions ...` with
`created_at = time.Now()`; a driver failure is surfaced as an error. -/
def recordTransaction (insertFails : Bool) (now : Nat) (txs : List TxRecord)
    (txID fromID toID : String) (amount : Int) (currency : String) :
    Except Err (List TxRecord) :=
  if insertFails then .error .recordFailed
  else .ok (txs ++ [⟨txID, fromID, toID, amount, currency, now⟩])

/-- The lock-acquisition phase of `PerformTransfer` (part of the source's
lines 51-72): lock both accounts, in ascending order of their identifiers
(`if fromID < toID` lock `fromID` first, else lock `toID` first), returning
the pair `(fromAcc, toAcc)` and the trace of lock requests issued. -/
def lockPhase (db : DBState) (fromID toID : String) :
    Except Err (Account × Account) × List StoreEvent :=
  if strLt fromID toID then
    match GetAccountWithLock db.accounts fromID with
    | .error e => (.error e, [.lockRow fromID])
    | .ok fromAcc =>
        match GetAccountWithLock db.accounts toID with
        | .error e => (.error e, [.lockRow fromID, .lockRow toID])
        | .ok toAcc => (.ok (fromAcc, toAcc), [.lockRow fromID, .lockRow toID])
  else
    match GetAccountWithLock db.accounts toID with
    | .error e => (.error e, [.lockRow toID])
    | .ok toAcc =>
        match GetAccountWithLock db.accounts fromID with
        | .error e => (.error e, [.lockRow toID, .lockRow fromID])
        | .ok fromAcc => (.ok (fromAcc, toAcc), [.lockRow toID, .lockRow fromID])

/-- Result of a `PerformTransfer` run: the returned
`(transaction id, error)` pair, the store as published to other readers
after the run (unchanged unless `Commit` succeeded), and the trace of store
interactions. -/
structure TransferResult where
  outcome : Except Err String
  db : DBState
  events : List StoreEvent

/-- `LedgerService.PerformTransfer` (internal/service): validate the inputs
before any store interaction, open a transaction with a deferred rollback,
lock the two rows in sorted order, check currencies and funds, apply the
debit and the credit, record the audit row, and commit.  Every error path
returns with the deferred rollback having run and publishes nothing; only a
successful commit publishes the transaction-local view. -/
def PerformTransfer (f : Faults) (txID : String) (now : Nat) (db : DBState)
    (fromID toID : String) (amount : Int) : TransferResult :=
  if fromID = "" ∨ toID = "" then ⟨.error .emptyAccountIds, db, []⟩
  else if fromID = toID then ⟨.error .sameAccount, db, []⟩
  else if amount ≤ 0 then ⟨.error .amountNotPositive, db, []⟩
  else if f.beginFails then ⟨.error .beginFailed, db, []⟩
  else
    match lockPhase db fromID toID with
    | (.error e, evs) => ⟨.error e, db, .beginTx :: evs ++ [.rollbackTx]⟩
    | (.ok (fromAcc, toAcc), evs) =>
      if fromAcc.currency ≠ toAcc.currency then
        ⟨.error (.currencyMismatch fromAcc.currency toAcc.currency), db,
          .beginTx :: evs ++ [.rollbackTx]⟩
      else if fromAcc.balanceCents < amount then
        ⟨.error (.insufficientFunds fromID fromAcc.balanceCents amount), db,
          .beginTx :: evs ++ [.rollbackTx]⟩
      else
        match UpdateBalance f.debitExecFails now db.accounts fromID (-amount) with
        | .error e =>
            ⟨.error (.debitFailed fromID e), db,
              .beginTx :: evs ++ [.updateRow fromID, .rollbackTx]⟩
        | .ok accounts1 =>
          match UpdateBalance f.creditExecFails now accounts1 toID amount with
          | .error e =>
              ⟨.error (.creditFailed toID e), db,
                .beginTx :: evs ++ [.updateRow fromID, .updateRow toID, .rollbackTx]⟩
          | .ok accounts2 =>
            match recordTransaction f.insertFails now db.transactions
                txID fromID toID amount fromAcc.currency with
            | .error e =>
                ⟨.error e, db,
                  .beginTx :: evs
                    ++ [.updateRow fromID, .updateRow toID, .insertTx, .rollbackTx]⟩
            | .ok txs2 =>
              if f.commitFails then
                ⟨.error .commitFailed, db,
                  .beginTx :: evs
                    ++ [.updateRow fromID, .updateRow toID, .insertTx,
                        .commitTx, .rollbackTx]⟩
              else
                ⟨.ok txID, ⟨accounts2, txs2⟩,
                  .beginTx :: evs
                    ++ [.updateRow fromID, .updateRow toID, .insertTx, .commitTx]⟩

/-- The error-string-to-gRPC-code mapping of `Handler.Transfer`
(handler.go lines 53-64): `strings.Contains` checks on the error's message,
in source order, falling through to `codes.Internal` with a
"transfer failed: " wrapper. -/
def classifyTransferError (e : Err) : GrpcCode × String :=
  if strContains e.message "not found" then (.notFound, e.message)
  else if strContains e.message "insufficient funds" then
    (.failedPrecondition, e.message)
  else if strContains e.message "currency mismatch"
      || strContains e.message "cannot be empty" then
    (.invalidArgument, e.message)
  else (.internal, "transfer failed: " ++ e.message)

/-- The wire request of the `Transfer` RPC. -/
structure TransferRequest where
  fromAccountId : String
  toAccountId : String
  amountCents : Int
  currency : String
  deriving DecidableEq, Repr

/-- The wire response of the `Transfer` RPC. -/
structure TransferResponse where
  transactionId : String
  status : String
  deriving DecidableEq, Repr

/-- Result of a `Handler.Transfer` run: the gRPC response or
`(code, message)` error, plus the store and trace of the underlying
service call. -/
structure HandlerResult where
  response : Except (GrpcCode × String) TransferResponse
  db : DBState
  events : List StoreEvent

/-- `Handler.Transfer` (handler.go lines 36-71): reject empty ids, a
non-positive amount, or an empty currency with `codes.InvalidArgument`
before calling the service; otherwise call `PerformTransfer` — passing only
the ids and the amount, not the request currency — and map a service error
to a gRPC code by message content. -/
def HandlerTransfer (f : Faults) (txID : String) (now : Nat) (db : DBState)
    (req : TransferRequest) : HandlerResult :=
  if req.fromAccountId = "" then
    ⟨.error (.invalidArgument, "from_account_id is required"), db, []⟩
  else if req.toAccountId = "" then
    ⟨.error (.invalidArgument, "to_account_id is required"), db, []⟩
  else if req.amountCents ≤ 0 then
    ⟨.error (.invalidArgument, "amount must be positive"), db, []⟩
  else if req.currency = "" then
    ⟨.error (.invalidArgument, "currency is required"), db, []⟩
  else
    let r := PerformTransfer f txID now db req.fromAccountId req.toAccountId
      req.amountCents
    match r.outcome with
    | .error e => ⟨.error (classifyTransferError e), r.db, r.events⟩
    | .ok tid => ⟨.ok ⟨tid, "SUCCESS"⟩, r.db, r.events⟩

/-- The wire request of the `CreateAccount` RPC. -/
structure CreateAccountRequest where
  id : String
  initialBalanceCents : Int
  currency : String
  deriving DecidableEq, Repr

/-- The error-string mapping of `Handler.CreateAccount`
(handler.go lines 111-118). -/
def classifyCreateError (e : Err) : GrpcCode × String :=
  if strContains e.message "already exists" || strContains e.message "duplicate" then
    (.alreadyExists, e.message)
  else if strContains e.message "required" || strContains e.message "must be" then
    (.invalidArgument, e.message)
  else (.internal, "failed to create account: " ++ e.message)

/-- `Handler.CreateAccount` (handler.go lines 96-127): reject an empty
currency, then a negative initial balance, with `codes.InvalidArgument`,
before invoking the service; otherwise call the service.  The service's
`CreateAccount` implementation is outside the engine sources, so it is a
parameter; the returned `Bool` records whether it was invoked. -/
def HandlerCreateAccount (service : CreateAccountRequest → Except Err Account)
    (req : CreateAccountRequest) :
    Except (GrpcCode × String) Account × Bool :=
  if req.currency = "" then
    (.error (.invalidArgument, "currency is required"), false)
  else if req.initialBalanceCents < 0 then
    (.error (.invalidArgument, "initial balance cannot be negative"), false)
  else
    match service req with
    | .error e => (.error (classifyCreateError e), true)
    | .ok acc => (.ok acc, true)

/-- A notification job (worker.go). -/
structure Notification where
  accountId : String
  message : String
  deriving DecidableEq, Repr

/-- `NotificationWorkerPool` (worker.go): a bounded channel of notification
jobs, modelled by its capacity and buffered contents. -/
structure NotificationWorkerPool where
  bufferSize : Nat
  jobQueue : List Notification
  deriving DecidableEq, Repr

/-- `NewNotificationWorkerPool` (worker.go): a pool with an empty buffered
channel of the given capacity. -/
def NewNotificationWorkerPool (bufferSize : Nat) : NotificationWorkerPool :=
  ⟨bufferSize, []⟩

/-- `NotificationWorkerPool.Enqueue` (worker.go lines 38-44): a
`select` with a `default` branch — if the channel has room the job is
buffered, otherwise it is dropped with a log line; the caller never
blocks either way. -/
def NotificationWorkerPool.Enqueue (p : NotificationWorkerPool)
    (n : Notification) : NotificationWorkerPool :=
  if p.jobQueue.length < p.bufferSize then
    { p with jobQueue := p.jobQueue ++ [n] }
  else p

/-- Sample account `A` (cf. migration `002_insert_sample_data.sql`). -/
def accA : Account := ⟨"A", 1000, "USD", 0, 0⟩

/-- Sample account `B`. -/
def accB : Account := ⟨"B", 500, "USD", 0, 0⟩

/-- Sample account `C`, in a different currency. -/
def accC : Account := ⟨"C", 700, "EUR", 0, 0⟩

/-- A sample store holding accounts `A`, `B` and `C` and an empty audit log. -/
def sampleDB : DBState :=
  ⟨fun k =>
    if k = "A" then some accA
    else if k = "B" then some accB
    else if k = "C" then some accC
    else none, []⟩


theorem GetAccountWithLock_eq_ok_iff {accounts : String → Option Account}
    {id : String} {acc : Account} :
    GetAccountWithLock accounts id = .ok acc ↔ accounts id = some acc := by
  unfold GetAccountWithLock
  split <;> simp_all

theorem GetAccountWithLock_eq_error_iff {accounts : String → Option Account}
    {id : String} {e : Err} :
    GetAccountWithLock accounts id = .error e ↔
      accounts id = none ∧ e = .accountNotFound id := by
  unfold GetAccountWithLock
  split <;> simp_all [eq_comm]

theorem lockPhase_ok_inv {db : DBState} {a b : String} {fa ta : Account}
    {evs : List StoreEvent}
    (h : lockPhase db a b = (.ok (fa, ta), evs)) :
    db.accounts a = some fa ∧ db.accounts b = some ta ∧
    evs = if strLt a b then [.lockRow a, .lockRow b]
          else [.lockRow b, .lockRow a] := by
  unfold lockPhase at h
  repeat' split at h
  all_goals simp_all [GetAccountWithLock_eq_ok_iff]

theorem UpdateBalance_eq_ok_iff {execFails : Bool} {now : Nat}
    {accounts : String → Option Account} {id : String} {amount : Int}
    {accounts2 : String → Option Account} :
    UpdateBalance execFails now accounts id amount = .ok accounts2 ↔
      execFails = false ∧
      ∃ acc, accounts id = some acc ∧
        accounts2 = fun k =>
          if k = id then
            some { acc with balanceCents := acc.balanceCents + amount,
                            updatedAt := now }
          else accounts k := by
  unfold UpdateBalance
  repeat' split
  all_goals simp_all [eq_comm]

theorem recordTransaction_eq_ok_iff {insertFails : Bool} {now : Nat}
    {txs : List TxRecord} {txID fromID toID : String} {amount : Int}
    {currency : String} {txs2 : List TxRecord} :
    recordTransaction insertFails now txs txID fromID toID amount currency =
        .ok txs2 ↔
      insertFails = false ∧
      txs2 = txs ++ [⟨txID, fromID, toID, amount, currency, now⟩] := by
  unfold recordTransaction
  split <;> simp_all [eq_comm]

/-- Characterisation of a successful `PerformTransfer` run: the inputs were
valid, both rows existed with matching currencies and sufficient funds, and
the published store debits `fromID` by `amount`, credits `toID` by
`amount`, stamps both rows' `updated_at`, appends exactly one audit record,
and touches nothing else. -/
theorem PerformTransfer_ok_spec
    {f : Faults} {txID : String} {now : Nat} {db : DBState}
    {fromID toID : String} {amount : Int} {tid : String}
    (hrun : (PerformTransfer f txID now db fromID toID amount).outcome = .ok tid) :
    tid = txID ∧ fromID ≠ toID ∧ 0 < amount ∧
    ∃ fa ta, db.accounts fromID = some fa ∧ db.accounts toID = some ta ∧
      fa.currency = ta.currency ∧ amount ≤ fa.balanceCents ∧
      (PerformTransfer f txID now db fromID toID amount).db.accounts fromID =
        some { fa with balanceCents := fa.balanceCents + -amount,
                       updatedAt := now } ∧
      (PerformTransfer f txID now db fromID toID amount).db.accounts toID =
        some { ta with balanceCents := ta.balanceCents + amount,
                       updatedAt := now } ∧
      (∀ k, k ≠ fromID → k ≠ toID →
        (PerformTransfer f txID now db fromID toID amount).db.accounts k =
          db.accounts k) ∧
      (PerformTransfer f txID now db fromID toID amount).db.transactions =
        db.transactions ++ [⟨txID, fromID, toID, amount, fa.currency, now⟩] := by
  rcases h : PerformTransfer f txID now db fromID toID amount with ⟨o, rdb, evl⟩
  rw [h] at hrun
  dsimp only at hrun ⊢
  unfold PerformTransfer at h
  split at h
  · cases h; simp at hrun
  split at h
  · cases h; simp at hrun
  split at h
  · cases h; simp at hrun
  split at h
  · cases h; simp at hrun
  rename_i h1 h2 h3 h4
  split at h
  next e evs heqL => cases h; simp at hrun
  next fromAcc toAcc evs heqL =>
    split at h
    · cases h; simp at hrun
    rename_i h5
    split at h
    · cases h; simp at hrun
    rename_i h6
    split at h
    next e heqD => cases h; simp at hrun
    next accounts1 heqD =>
      split at h
      next e heqC => cases h; simp at hrun
      next accounts2 heqC =>
        split at h
        next e heqR => cases h; simp at hrun
        next txs2 heqR =>
          split at h
          · cases h; simp at hrun
          rename_i h7
          cases h
          injection hrun with htid
          obtain ⟨hfa, hta, hevs⟩ := lockPhase_ok_inv heqL
          obtain ⟨hdf, acc1, hacc1, ha1⟩ := UpdateBalance_eq_ok_iff.mp heqD
          rw [hfa] at hacc1
          injection hacc1 with hacc1
          subst hacc1
          obtain ⟨hcf, acc2, hacc2, ha2⟩ := UpdateBalance_eq_ok_iff.mp heqC
          simp only [ha1] at hacc2
          rw [if_neg (fun hh : toID = fromID => h2 hh.symm)] at hacc2
          rw [hta] at hacc2
          injection hacc2 with hacc2
          subst hacc2
          obtain ⟨hif, htxs⟩ := recordTransaction_eq_ok_iff.mp heqR
          push_neg at h5 h6
          refine ⟨htid.symm, h2, by omega, fromAcc, toAcc, hfa, hta, h5, by omega,
            ?_, ?_, ?_, htxs⟩
          · simp [ha2, ha1, h2]
          · simp [ha2]
          · intro k hk1 hk2
            simp [ha2, ha1, hk1, hk2]

/-- Characterisation of a failed `PerformTransfer` run: the published store
is the input store, and if a transaction was opened its trace ends with the
deferred rollback. -/
theorem PerformTransfer_error_spec
    {f : Faults} {txID : String} {now : Nat} {db : DBState}
    {fromID toID : String} {amount : Int} {e : Err}
    (hrun : (PerformTransfer f txID now db fromID toID amount).outcome =
      .error e) :
    (PerformTransfer f txID now db fromID toID amount).db = db ∧
    (StoreEvent.beginTx ∈ (PerformTransfer f txID now db fromID toID amount).events →
      (PerformTransfer f txID now db fromID toID amount).events.getLast? =
        some .rollbackTx) := by
  rcases h : PerformTransfer f txID now db fromID toID amount with ⟨o, rdb, evl⟩
  rw [h] at hrun
  dsimp only at hrun ⊢
  unfold PerformTransfer at h
  repeat' split at h
  all_goals cases h
  all_goals
    first
      | exact ⟨rfl, fun hm => by
          first
            | (rw [List.getLast?_append_cons]; rfl)
            | simp at hm⟩
      | simp at hrun

theorem char_toNat_inj {a b : Char} (h : a.toNat = b.toNat) : a = b :=
  Char.ext (UInt32.toNat.inj h)

theorem charsLt_irrefl : ∀ l : List Char, charsLt l l = false := by
  intro l
  induction l with
  | nil => rfl
  | cons a as ih => simp [charsLt, ih]

theorem charsLt_total_of_ne : ∀ {l m : List Char}, l ≠ m →
    charsLt l m = true ∨ charsLt m l = true := by
  intro l
  induction l with
  | nil =>
    intro m hm
    cases m with
    | nil => exact absurd rfl hm
    | cons b bs => left; rfl
  | cons a as ih =>
    intro m hm
    cases m with
    | nil => right; rfl
    | cons b bs =>
      rcases Nat.lt_trichotomy a.toNat b.toNat with hlt | heq | hgt
      · left; simp [charsLt, hlt]
      · have hab : a = b := char_toNat_inj heq
        subst hab
        have has : as ≠ bs := fun hh => hm (by rw [hh])
        rcases ih has with h1 | h1
        · left; simp [charsLt, h1]
        · right; simp [charsLt, h1]
      · right; simp [charsLt, hgt, Nat.lt_asymm hgt]

/-- `strLt` is a strict total order: two distinct identifiers compare
strictly in exactly one direction. -/
theorem strLt_asymm_total {a b : String} (hab : a ≠ b) (h : strLt a b = false) :
    strLt b a = true := by
  have hdata : a.data ≠ b.data := fun hh => hab (by
    cases a; cases b; simp_all)
  rcases charsLt_total_of_ne hdata with h1 | h1
  · rw [strLt] at h; rw [h] at h1; exact absurd h1 (by simp)
  · exact h1

theorem strLt_irrefl (a : String) : strLt a a = false :=
  charsLt_irrefl a.data

theorem isPrefixOf_self : ∀ l : List Char, l.isPrefixOf l = true := by
  intro l
  induction l with
  | nil => rfl
  | cons c cs ih => simp [List.isPrefixOf, ih]

theorem charsContain_self : ∀ p : List Char, charsContain p p = true := by
  intro p
  cases p with
  | nil => rfl
  | cons c cs => simp [charsContain, isPrefixOf_self]

theorem charsContain_append_of_right :
    ∀ (l₁ : List Char) {l₂ p : List Char},
      charsContain l₂ p = true → charsContain (l₁ ++ l₂) p = true := by
  intro l₁
  induction l₁ with
  | nil => intro l₂ p h; exact h
  | cons c cs ih =>
    intro l₂ p h
    show charsContain (c :: (cs ++ l₂)) p = true
    rw [charsContain]
    simp [ih h]

/-- `strings.Contains` finds a pattern anywhere in the right part of a
concatenation. -/
theorem strContains_append_right (s : String) {t p : String}
    (h : strContains t p = true) : strContains (s ++ t) p = true := by
  unfold strContains at h ⊢
  rw [String.data_append]
  exact charsContain_append_of_right s.data h

/-- `strings.Contains s p` holds when `p` is a suffix of `s`. -/
theorem strContains_suffix (s t : String) : strContains (s ++ t) t = true := by
  unfold strContains
  rw [String.data_append]
  exact charsContain_append_of_right s.data (charsContain_self t.data)

/-- The "account %s not found" message contains "not found", whatever the
id is. -/
theorem accountNotFound_message_has_notFound (id : String) :
    strContains (Err.accountNotFound id).message "not found" = true := by
  show strContains ("account " ++ id ++ " not found") "not found" = true
  exact strContains_append_right ("account " ++ id)
    (by decide)

/-- The wrapped debit error around a zero-rows "not found" is classified as
`NotFound` by the handler's message matching. -/
theorem classify_debit_zero_rows (id eid : String) :
    (classifyTransferError (.debitFailed id (.accountNotFound eid))).1 =
      .notFound := by
  have hmsg : strContains (Err.debitFailed id (.accountNotFound eid)).message
      "not found" = true := by
    show strContains ("failed to debit account " ++ id ++ ": "
      ++ (Err.accountNotFound eid).message) "not found" = true
    exact strContains_append_right ("failed to debit account " ++ id ++ ": ")
      (accountNotFound_message_has_notFound eid)
  unfold classifyTransferError
  rw [if_pos hmsg]

/-- Events of `lockPhase`, extracted: the ids locked, in request order. -/
def lockEventsOf : List StoreEvent → List String
  | [] => []
  | .lockRow i :: rest => i :: lockEventsOf rest
  | _ :: rest => lockEventsOf rest

theorem lockEventsOf_append : ∀ l m : List StoreEvent,
    lockEventsOf (l ++ m) = lockEventsOf l ++ lockEventsOf m := by
  intro l m
  induction l with
  | nil => rfl
  | cons e rest ih => cases e <;> simp [lockEventsOf, ih]

theorem lockPhase_eq_ok {db : DBState} {a b : String} {fa ta : Account}
    (hfa : db.accounts a = some fa) (hta : db.accounts b = some ta) :
    lockPhase db a b =
      (.ok (fa, ta),
        if strLt a b then [.lockRow a, .lockRow b]
        else [.lockRow b, .lockRow a]) := by
  unfold lockPhase GetAccountWithLock
  split <;> simp [hfa, hta]

/-- The lock requests a transfer issues, under the conditions that make it
reach the lock phase with both rows present: always the two ids, ascending
ids first. -/
theorem PerformTransfer_lockEvents {f : Faults} {txID : String} {now : Nat}
    {db : DBState} {a b : String} {amt : Int}
    (ha : a ≠ "") (hb : b ≠ "") (hab : a ≠ b) (hamt : 0 < amt)
    (hbeg : f.beginFails = false) {fa ta : Account}
    (hfa : db.accounts a = some fa) (hta : db.accounts b = some ta) :
    lockEventsOf (PerformTransfer f txID now db a b amt).events =
      if strLt a b then [a, b] else [b, a] := by
  unfold PerformTransfer
  rw [if_neg (by simp [ha, hb]), if_neg hab, if_neg (by omega),
    if_neg (by simp [hbeg]), lockPhase_eq_ok hfa hta]
  by_cases hlt : strLt a b
  · simp only [hlt, if_true]
    repeat' split
    all_goals simp [lockEventsOf_append, lockEventsOf]
  · simp only [hlt, Bool.false_eq_true, if_false]
    repeat' split
    all_goals simp [lockEventsOf_append, lockEventsOf]


/-- C1: for every transfer that commits successfully, the from account's
balance decreases by exactly the transfer amount and the to account's
balance increases by the same amount, so the sum of the two balances is
preserved and the two balance deltas cancel. -/
theorem transfer_conservation
    {f : Faults} {txID : String} {now : Nat} {db : DBState}
    {fromID toID : String} {amount : Int} {tid : String} {fa ta : Account}
    (hrun : (PerformTransfer f txID now db fromID toID amount).outcome = .ok tid)
    (hfa : db.accounts fromID = some fa) (hta : db.accounts toID = some ta) :
    ∃ fa' ta',
      (PerformTransfer f txID now db fromID toID amount).db.accounts fromID =
        some fa' ∧
      (PerformTransfer f txID now db fromID toID amount).db.accounts toID =
        some ta' ∧
      ta'.balanceCents - ta.balanceCents = amount ∧
      fa'.balanceCents - fa.balanceCents = -amount ∧
      fa'.balanceCents + ta'.balanceCents = fa.balanceCents + ta.balanceCents := by
  obtain ⟨-, -, -, fa0, ta0, hfa0, hta0, -, -, hfrom, hto, -, -⟩ :=
    PerformTransfer_ok_spec hrun
  rw [hfa] at hfa0
  injection hfa0 with hfa0
  subst hfa0
  rw [hta] at hta0
  injection hta0 with hta0
  subst hta0
  exact ⟨_, _, hfrom, hto, by simp, by simp, by simp; omega⟩

/-- C1 witness: a concrete committed transfer of 100 from `A` to `B`. -/
theorem transfer_conservation_witness :
    ∃ fa' ta',
      (PerformTransfer noFaults "tx1" 7 sampleDB "A" "B" 100).db.accounts "A" =
        some fa' ∧
      (PerformTransfer noFaults "tx1" 7 sampleDB "A" "B" 100).db.accounts "B" =
        some ta' ∧
      ta'.balanceCents - accB.balanceCents = 100 ∧
      fa'.balanceCents - accA.balanceCents = -100 ∧
      fa'.balanceCents + ta'.balanceCents =
        accA.balanceCents + accB.balanceCents :=
  @transfer_conservation noFaults "tx1" 7 sampleDB "A" "B" 100 "tx1" accA accB
    (by decide) (by decide) (by decide)

/-- C2: a transfer commits only when the locked from account's balance is
at least the strictly positive amount; every account that is non-negative
before the commit is non-negative after it (the debited account is even
unconditionally non-negative afterwards). -/
theorem transfer_preserves_nonnegative_balances
    {f : Faults} {txID : String} {now : Nat} {db : DBState}
    {fromID toID : String} {amount : Int} {tid : String}
    (hrun : (PerformTransfer f txID now db fromID toID amount).outcome = .ok tid) :
    0 < amount ∧
    (∀ fa, db.accounts fromID = some fa → amount ≤ fa.balanceCents) ∧
    (∀ k acc acc', db.accounts k = some acc → 0 ≤ acc.balanceCents →
      (PerformTransfer f txID now db fromID toID amount).db.accounts k =
        some acc' →
      0 ≤ acc'.balanceCents) := by
  obtain ⟨-, hne, hpos, fa0, ta0, hfa0, hta0, -, hfund, hfrom, hto, hframe, -⟩ :=
    PerformTransfer_ok_spec hrun
  refine ⟨hpos, ?_, ?_⟩
  · intro fa hfa
    rw [hfa0] at hfa
    injection hfa with hfa
    subst hfa
    exact hfund
  · intro k acc acc' hacc hnn hacc'
    by_cases hk1 : k = fromID
    · subst hk1
      rw [hfrom] at hacc'
      injection hacc' with hacc'
      rw [hfa0] at hacc
      injection hacc with hacc
      subst hacc
      subst hacc'
      simp
      omega
    by_cases hk2 : k = toID
    · subst hk2
      rw [hto] at hacc'
      injection hacc' with hacc'
      rw [hta0] at hacc
      injection hacc with hacc
      subst hacc
      subst hacc'
      simp
      omega
    · rw [hframe k hk1 hk2, hacc] at hacc'
      injection hacc' with hacc'
      subst hacc'
      exact hnn

/-- C2 witness: the concrete committed transfer of 100 from `A` to `B`. -/
theorem transfer_preserves_nonnegative_balances_witness :
    0 < (100 : Int) ∧
    (∀ fa, sampleDB.accounts "A" = some fa → 100 ≤ fa.balanceCents) ∧
    (∀ k acc acc', sampleDB.accounts k = some acc → 0 ≤ acc.balanceCents →
      (PerformTransfer noFaults "tx1" 7 sampleDB "A" "B" 100).db.accounts k =
        some acc' →
      0 ≤ acc'.balanceCents) :=
  @transfer_preserves_nonnegative_balances noFaults "tx1" 7 sampleDB "A" "B" 100
    "tx1" (by decide)

/-- C3: whenever `PerformTransfer` returns an error, the published store is
exactly the input store (accounts and transaction log unchanged), and if a
transaction had been opened its trace ends with the deferred rollback; only
a successful commit publishes anything. -/
theorem transfer_error_rolls_back
    {f : Faults} {txID : String} {now : Nat} {db : DBState}
    {fromID toID : String} {amount : Int} {e : Err}
    (hrun : (PerformTransfer f txID now db fromID toID amount).outcome =
      .error e) :
    (PerformTransfer f txID now db fromID toID amount).db.accounts =
      db.accounts ∧
    (PerformTransfer f txID now db fromID toID amount).db.transactions =
      db.transactions ∧
    (StoreEvent.beginTx ∈
        (PerformTransfer f txID now db fromID toID amount).events →
      (PerformTransfer f txID now db fromID toID amount).events.getLast? =
        some .rollbackTx) := by
  obtain ⟨hdb, hroll⟩ := PerformTransfer_error_spec hrun
  exact ⟨by rw [hdb], by rw [hdb], hroll⟩

/-- C3 witness: a concrete refused transfer (insufficient funds). -/
theorem transfer_error_rolls_back_witness :
    (PerformTransfer noFaults "tx1" 0 sampleDB "A" "B" 999999).db.accounts =
      sampleDB.accounts ∧
    (PerformTransfer noFaults "tx1" 0 sampleDB "A" "B" 999999).db.transactions =
      sampleDB.transactions ∧
    (StoreEvent.beginTx ∈
        (PerformTransfer noFaults "tx1" 0 sampleDB "A" "B" 999999).events →
      (PerformTransfer noFaults "tx1" 0 sampleDB "A" "B" 999999).events.getLast? =
        some .rollbackTx) :=
  @transfer_error_rolls_back noFaults "tx1" 0 sampleDB "A" "B" 999999
    (.insufficientFunds "A" 1000 999999) (by decide)

/-- C9: a committed transfer changes only `balance_cents` and `updated_at`
of the two named accounts; `id`, `currency` and `created_at` of both are
unchanged and every other account row is entirely unchanged. -/
theorem transfer_frame_effect
    {f : Faults} {txID : String} {now : Nat} {db : DBState}
    {fromID toID : String} {amount : Int} {tid : String}
    (hrun : (PerformTransfer f txID now db fromID toID amount).outcome = .ok tid) :
    (∀ k, k ≠ fromID → k ≠ toID →
      (PerformTransfer f txID now db fromID toID amount).db.accounts k =
        db.accounts k) ∧
    (∀ fa, db.accounts fromID = some fa → ∃ fa',
      (PerformTransfer f txID now db fromID toID amount).db.accounts fromID =
        some fa' ∧
      fa'.id = fa.id ∧ fa'.currency = fa.currency ∧
      fa'.createdAt = fa.createdAt) ∧
    (∀ ta, db.accounts toID = some ta → ∃ ta',
      (PerformTransfer f txID now db fromID toID amount).db.accounts toID =
        some ta' ∧
      ta'.id = ta.id ∧ ta'.currency = ta.currency ∧
      ta'.createdAt = ta.createdAt) := by
  obtain ⟨-, -, -, fa0, ta0, hfa0, hta0, -, -, hfrom, hto, hframe, -⟩ :=
    PerformTransfer_ok_spec hrun
  refine ⟨hframe, ?_, ?_⟩
  · intro fa hfa
    rw [hfa0] at hfa
    injection hfa with hfa
    subst hfa
    exact ⟨_, hfrom, rfl, rfl, rfl⟩
  · intro ta hta
    rw [hta0] at hta
    injection hta with hta
    subst hta
    exact ⟨_, hto, rfl, rfl, rfl⟩

/-- C9 witness: the concrete committed transfer of 100 from `A` to `B`,
with `C` untouched. -/
theorem transfer_frame_effect_witness :
    (∀ k, k ≠ "A" → k ≠ "B" →
      (PerformTransfer noFaults "tx1" 7 sampleDB "A" "B" 100).db.accounts k =
        sampleDB.accounts k) ∧
    (∀ fa, sampleDB.accounts "A" = some fa → ∃ fa',
      (PerformTransfer noFaults "tx1" 7 sampleDB "A" "B" 100).db.accounts "A" =
        some fa' ∧
      fa'.id = fa.id ∧ fa'.currency = fa.currency ∧
      fa'.createdAt = fa.createdAt) ∧
    (∀ ta, sampleDB.accounts "B" = some ta → ∃ ta',
      (PerformTransfer noFaults "tx1" 7 sampleDB "A" "B" 100).db.accounts "B" =
        some ta' ∧
      ta'.id = ta.id ∧ ta'.currency = ta.currency ∧
      ta'.createdAt = ta.createdAt) :=
  @transfer_frame_effect noFaults "tx1" 7 sampleDB "A" "B" 100 "tx1" (by decide)

/-- C10: a `CreateAccount` request with a negative initial balance is
rejected by the handler with `codes.InvalidArgument` before the service is
ever invoked, so no account is created with a negative starting balance. -/
theorem create_account_rejects_negative_initial_balance
    (service : CreateAccountRequest → Except Err Account)
    (req : CreateAccountRequest) (h : req.initialBalanceCents < 0) :
    (∃ m, (HandlerCreateAccount service req).1 = .error (.invalidArgument, m)) ∧
    (HandlerCreateAccount service req).2 = false := by
  unfold HandlerCreateAccount
  by_cases hc : req.currency = ""
  · rw [if_pos hc]
    exact ⟨⟨_, rfl⟩, rfl⟩
  · rw [if_neg hc, if_pos h]
    exact ⟨⟨_, rfl⟩, rfl⟩

/-- C10 witness: a concrete request with balance -5. -/
theorem create_account_rejects_negative_initial_balance_witness :
    (∃ m, (HandlerCreateAccount (fun _ => .error .recordFailed)
      ⟨"X", -5, "USD"⟩).1 = .error (.invalidArgument, m)) ∧
    (HandlerCreateAccount (fun _ => .error .recordFailed)
      ⟨"X", -5, "USD"⟩).2 = false :=
  create_account_rejects_negative_initial_balance _ _ (by decide)


theorem charsLt_asymm : ∀ {l m : List Char},
    charsLt l m = true → charsLt m l = false := by
  intro l
  induction l with
  | nil =>
    intro m h
    cases m with
    | nil => simp [charsLt] at h
    | cons b bs => rfl
  | cons a as ih =>
    intro m h
    cases m with
    | nil => simp [charsLt] at h
    | cons b bs =>
      rcases Nat.lt_trichotomy a.toNat b.toNat with hlt | heq | hgt
      · simp [charsLt, hlt, Nat.lt_asymm hlt]
      · rw [charsLt] at h
        rw [if_neg (by omega), if_neg (by omega)] at h
        rw [charsLt, if_neg (by omega), if_neg (by omega)]
        exact ih h
      · rw [charsLt] at h
        rw [if_neg (by omega), if_pos hgt] at h
        simp at h

theorem strLt_asymm {a b : String} (h : strLt a b = true) :
    strLt b a = false :=
  charsLt_asymm h

/-- Two lock-request sequences over the same pair that would form a
two-party hold-and-wait cycle. -/
def conflictingLockOrders (l1 l2 : List String) : Prop :=
  ∃ x y, x ≠ y ∧ l1 = [x, y] ∧ l2 = [y, x]

/-- C4: for distinct account ids, a transfer requests the two row locks in
ascending lexicographic order of the ids, lower id first, whatever the
direction of the transfer, so two concurrent transfers over the same pair
(including reciprocal ones) issue their lock requests in the same order and
cannot form a two-party lock cycle. -/
theorem transfer_lock_ordering_deadlock_free
    {f g : Faults} {t1 t2 : String} {n1 n2 : Nat} {db : DBState}
    {a b : String} {x y : Int}
    (ha : a ≠ "") (hb : b ≠ "") (hab : a ≠ b) (hx : 0 < x) (hy : 0 < y)
    (hf : f.beginFails = false) (hg : g.beginFails = false)
    {fa ta : Account}
    (hfa : db.accounts a = some fa) (hta : db.accounts b = some ta) :
    ∃ lo hi, strLt lo hi = true ∧
      lockEventsOf (PerformTransfer f t1 n1 db a b x).events = [lo, hi] ∧
      lockEventsOf (PerformTransfer g t2 n2 db b a y).events = [lo, hi] ∧
      ¬ conflictingLockOrders
          (lockEventsOf (PerformTransfer f t1 n1 db a b x).events)
          (lockEventsOf (PerformTransfer g t2 n2 db b a y).events) := by
  have hforward :=
    @PerformTransfer_lockEvents f t1 n1 db a b x ha hb hab hx hf fa ta hfa hta
  have hreverse :=
    @PerformTransfer_lockEvents g t2 n2 db b a y hb ha (fun hh => hab hh.symm)
      hy hg ta fa hta hfa
  by_cases hlt : strLt a b = true
  · refine ⟨a, b, hlt, ?_, ?_, ?_⟩
    · rw [hforward, if_pos hlt]
    · rw [hreverse, if_neg (by simp [strLt_asymm hlt])]
    · rintro ⟨p, q, hpq, hl1, hl2⟩
      rw [hforward, if_pos hlt] at hl1
      rw [hreverse, if_neg (by simp [strLt_asymm hlt])] at hl2
      injection hl1 with hp hl1
      injection hl1 with hq hnil1
      injection hl2 with hq2 hl2
      injection hl2 with hp2 hnil2
      exact hpq (by rw [← hp, ← hq2])
  · have hba : strLt b a = true :=
      strLt_asymm_total hab (by simpa using hlt)
    refine ⟨b, a, hba, ?_, ?_, ?_⟩
    · rw [hforward, if_neg hlt]
    · rw [hreverse, if_pos hba]
    · rintro ⟨p, q, hpq, hl1, hl2⟩
      rw [hforward, if_neg hlt] at hl1
      rw [hreverse, if_pos hba] at hl2
      injection hl1 with hp hl1
      injection hl1 with hq hnil1
      injection hl2 with hq2 hl2
      injection hl2 with hp2 hnil2
      exact hpq (by rw [← hp, ← hq2])

/-- C4 witness: the concrete pair `A`, `B` in both directions. -/
theorem transfer_lock_ordering_deadlock_free_witness :
    ∃ lo hi, strLt lo hi = true ∧
      lockEventsOf (PerformTransfer noFaults "t1" 0 sampleDB "A" "B" 5).events =
        [lo, hi] ∧
      lockEventsOf (PerformTransfer noFaults "t2" 0 sampleDB "B" "A" 9).events =
        [lo, hi] ∧
      ¬ conflictingLockOrders
          (lockEventsOf (PerformTransfer noFaults "t1" 0 sampleDB "A" "B" 5).events)
          (lockEventsOf (PerformTransfer noFaults "t2" 0 sampleDB "B" "A" 9).events) :=
  @transfer_lock_ordering_deadlock_free noFaults noFaults "t1" "t2" 0 0 sampleDB
    "A" "B" 5 9 (by decide) (by decide) (by decide) (by decide) (by decide)
    (by decide) (by decide) accA accB (by decide) (by decide)


/-- C5 counterexample: the request carries currency `EUR` while both
accounts are `USD`, yet the transfer succeeds and moves money — the request
currency is never compared with the accounts' currencies. -/
theorem request_currency_ignored_counterexample :
    accA.currency = "USD" ∧ accB.currency = "USD" ∧ ("EUR" : String) ≠ "USD" ∧
    sampleDB.accounts "A" = some accA ∧ sampleDB.accounts "B" = some accB ∧
    (HandlerTransfer noFaults "tx1" 7 sampleDB ⟨"A", "B", 100, "EUR"⟩).response =
      .ok ⟨"tx1", "SUCCESS"⟩ ∧
    (HandlerTransfer noFaults "tx1" 7 sampleDB
        ⟨"A", "B", 100, "EUR"⟩).db.accounts "A" =
      some { accA with balanceCents := 900, updatedAt := 7 } := by
  decide

/-- C5 amended: only the two accounts' stored currency fields are compared;
if they differ the transfer aborts with the currency-mismatch error and no
state change.  (The request currency itself is only checked for
non-emptiness by the handler and never compared, as the counterexample
shows.) -/
theorem account_currency_mismatch_aborts
    {f : Faults} {txID : String} {now : Nat} {db : DBState}
    {a b : String} {amt : Int} {fa ta : Account}
    (ha : a ≠ "") (hb : b ≠ "") (hab : a ≠ b) (hamt : 0 < amt)
    (hbeg : f.beginFails = false)
    (hfa : db.accounts a = some fa) (hta : db.accounts b = some ta)
    (hcur : fa.currency ≠ ta.currency) :
    (PerformTransfer f txID now db a b amt).outcome =
      .error (.currencyMismatch fa.currency ta.currency) ∧
    (PerformTransfer f txID now db a b amt).db = db := by
  unfold PerformTransfer
  rw [if_neg (by simp [ha, hb]), if_neg hab, if_neg (by omega),
    if_neg (by simp [hbeg]), lockPhase_eq_ok hfa hta]
  exact ⟨by simp [hcur], by simp [hcur]⟩

/-- C5 amended witness: accounts `A` (USD) and `C` (EUR). -/
theorem account_currency_mismatch_aborts_witness :
    (PerformTransfer noFaults "tx1" 0 sampleDB "A" "C" 100).outcome =
      .error (.currencyMismatch accA.currency accC.currency) ∧
    (PerformTransfer noFaults "tx1" 0 sampleDB "A" "C" 100).db = sampleDB :=
  @account_currency_mismatch_aborts noFaults "tx1" 0 sampleDB "A" "C" 100
    accA accC (by decide) (by decide) (by decide) (by decide) (by decide)
    (by decide) (by decide) (by decide)

/-- C6 counterexample: a self-transfer is rejected with no store
interaction, but the handler's error-string mapping surfaces it as
`codes.Internal`, not as the invalid-argument category the claim names. -/
theorem self_transfer_internal_counterexample :
    (HandlerTransfer noFaults "tx1" 0 sampleDB ⟨"A", "A", 100, "USD"⟩).response =
      .error (.internal, "transfer failed: cannot transfer to the same account") ∧
    (HandlerTransfer noFaults "tx1" 0 sampleDB ⟨"A", "A", 100, "USD"⟩).events =
      [] ∧
    GrpcCode.internal ≠ GrpcCode.invalidArgument := by
  decide

/-- C6 amended: an empty from id, empty to id or non-positive amount is
rejected by the handler with `codes.InvalidArgument` before the service
runs, with no store interaction and no state change; a self-transfer with
otherwise well-formed fields is likewise rejected before any store
interaction (no transaction opened, nothing read or written), but its error
surfaces as `codes.Internal` through the handler's string mapping. -/
theorem invalid_request_rejected_before_store
    (f : Faults) (txID : String) (now : Nat) (db : DBState)
    (req : TransferRequest) :
    (req.fromAccountId = "" ∨ req.toAccountId = "" ∨ req.amountCents ≤ 0 →
      (∃ m, (HandlerTransfer f txID now db req).response =
        .error (.invalidArgument, m)) ∧
      (HandlerTransfer f txID now db req).events = [] ∧
      (HandlerTransfer f txID now db req).db = db) ∧
    (req.fromAccountId ≠ "" → req.currency ≠ "" → 0 < req.amountCents →
      req.fromAccountId = req.toAccountId →
      (HandlerTransfer f txID now db req).response =
        .error (.internal, "transfer failed: cannot transfer to the same account") ∧
      (HandlerTransfer f txID now db req).events = [] ∧
      (HandlerTransfer f txID now db req).db = db) := by
  constructor
  · intro h
    unfold HandlerTransfer
    by_cases h1 : req.fromAccountId = ""
    · rw [if_pos h1]
      exact ⟨⟨_, rfl⟩, rfl, rfl⟩
    rw [if_neg h1]
    by_cases h2 : req.toAccountId = ""
    · rw [if_pos h2]
      exact ⟨⟨_, rfl⟩, rfl, rfl⟩
    rw [if_neg h2]
    by_cases h3 : req.amountCents ≤ 0
    · rw [if_pos h3]
      exact ⟨⟨_, rfl⟩, rfl, rfl⟩
    rcases h with h | h | h
    · exact absurd h h1
    · exact absurd h h2
    · exact absurd h h3
  · intro h1 hcur hamt heq
    have h2 : req.toAccountId ≠ "" := heq ▸ h1
    have hp : PerformTransfer f txID now db req.fromAccountId req.toAccountId
        req.amountCents = ⟨.error .sameAccount, db, []⟩ := by
      unfold PerformTransfer
      rw [if_neg (by simp [h1, h2]), if_pos heq]
    have hclass : classifyTransferError .sameAccount =
        (.internal, "transfer failed: cannot transfer to the same account") := by
      decide
    unfold HandlerTransfer
    rw [if_neg h1, if_neg h2, if_neg (by omega), if_neg hcur]
    simp [hp, hclass]

/-- C6 witness: a concrete empty-id request and a concrete self-transfer. -/
theorem invalid_request_rejected_before_store_witness :
    ((∃ m, (HandlerTransfer noFaults "t" 0 sampleDB
        ⟨"", "B", 100, "USD"⟩).response = .error (.invalidArgument, m)) ∧
      (HandlerTransfer noFaults "t" 0 sampleDB ⟨"", "B", 100, "USD"⟩).events =
        [] ∧
      (HandlerTransfer noFaults "t" 0 sampleDB ⟨"", "B", 100, "USD"⟩).db =
        sampleDB) ∧
    ((HandlerTransfer noFaults "t" 0 sampleDB ⟨"A", "A", 100, "USD"⟩).response =
        .error (.internal, "transfer failed: cannot transfer to the same account") ∧
      (HandlerTransfer noFaults "t" 0 sampleDB ⟨"A", "A", 100, "USD"⟩).events =
        [] ∧
      (HandlerTransfer noFaults "t" 0 sampleDB ⟨"A", "A", 100, "USD"⟩).db =
        sampleDB) :=
  ⟨(invalid_request_rejected_before_store noFaults "t" 0 sampleDB
      ⟨"", "B", 100, "USD"⟩).1 (Or.inl rfl),
   (invalid_request_rejected_before_store noFaults "t" 0 sampleDB
      ⟨"A", "A", 100, "USD"⟩).2 (by decide) (by decide) (by decide) rfl⟩

/-- C7 counterexample: a zero-rows-affected delta application is reported —
but its message is the "account %s not found" text, which the handler's
mapping classifies as `codes.NotFound`, not `codes.Internal` as the claim
states. -/
theorem zero_rows_classified_not_found_counterexample :
    UpdateBalance false 0 (fun _ => none) "ghost" 100 =
      .error (.accountNotFound "ghost") ∧
    classifyTransferError (.debitFailed "ghost" (.accountNotFound "ghost")) =
      (.notFound, "failed to debit account ghost: account ghost not found") ∧
    GrpcCode.notFound ≠ GrpcCode.internal := by
  exact ⟨rfl, by decide, by decide⟩

/-- C7 amended: a zero-rows-affected delta application is not silently
ignored — `UpdateBalance` turns it into an error, which aborts the whole
transfer with no persisted effect — but that error reads "account %s not
found" and the handler classifies the wrapped debit failure as `NotFound`,
never `Internal`. -/
theorem zero_rows_fails_transfer_not_silently
    {execFails : Bool} {now : Nat} {accounts : String → Option Account}
    {id : String} {amt : Int} (wid : String)
    (hmissing : accounts id = none) (hexec : execFails = false) :
    UpdateBalance execFails now accounts id amt =
      .error (.accountNotFound id) ∧
    (classifyTransferError (.debitFailed wid (.accountNotFound id))).1 =
      .notFound ∧
    (classifyTransferError (.debitFailed wid (.accountNotFound id))).1 ≠
      .internal := by
  subst hexec
  refine ⟨?_, classify_debit_zero_rows wid id, ?_⟩
  · unfold UpdateBalance
    rw [if_neg (by simp), hmissing]
  · rw [classify_debit_zero_rows wid id]
    decide

/-- C7 amended witness: the concrete missing row `ghost`. -/
theorem zero_rows_fails_transfer_not_silently_witness :
    UpdateBalance false 3 (fun _ => none) "ghost" 42 =
      .error (.accountNotFound "ghost") ∧
    (classifyTransferError (.debitFailed "ghost" (.accountNotFound "ghost"))).1 =
      .notFound ∧
    (classifyTransferError (.debitFailed "ghost" (.accountNotFound "ghost"))).1 ≠
      .internal :=
  @zero_rows_fails_transfer_not_silently false 3 (fun _ => none) "ghost" 42
    "ghost" rfl rfl

/-- C8: the source's `PerformTransfer` emits no notification events at all —
a fully successful commit produces a trace with no enqueue — even though
`NotificationWorkerPool.Enqueue` exists and implements the non-blocking
drop-on-full semantics (shown on a full and a non-full queue), and
`main.go` starts the pool; nothing ever feeds it. -/
theorem transfer_emits_no_notifications :
    (PerformTransfer noFaults "tx1" 0 sampleDB "A" "B" 100).outcome =
      .ok "tx1" ∧
    ((PerformTransfer noFaults "tx1" 0 sampleDB "A" "B" 100).events.filter
      (fun e => match e with | .enqueueNotif _ => true | _ => false)) = [] ∧
    NotificationWorkerPool.Enqueue ⟨2, [⟨"A", "m1"⟩, ⟨"B", "m2"⟩]⟩ ⟨"C", "m3"⟩ =
      ⟨2, [⟨"A", "m1"⟩, ⟨"B", "m2"⟩]⟩ ∧
    NotificationWorkerPool.Enqueue ⟨2, [⟨"A", "m1"⟩]⟩ ⟨"C", "m3"⟩ =
      ⟨2, [⟨"A", "m1"⟩, ⟨"C", "m3"⟩]⟩ := by
  decide

end ApexLedger
